import Mathlib

/-!
Shallow embedding of the mockito definition-resolution engine: the
inheritance-aware collection resolver, the stateless MocksManager and
the stateful MocksController with its atomic ad-hoc route overrides.
The native implementation behind the binding is not part of this tree
(only the e2e test suites are), so every operation is modelled from the
specification; the tests fix the observable behaviour the model must
reproduce.
-/

namespace Mockito

/-- Transport of a route: plain HTTP or WebSocket (Http = 0, WebSocket = 1). -/
inductive Transport
  | Http
  | WebSocket
deriving DecidableEq, Repr

/-- HTTP methods in binding order (Get = 0 .. Options = 6). -/
inductive HttpMethod
  | Get
  | Post
  | Put
  | Patch
  | Delete
  | Head
  | Options
deriving DecidableEq, Repr

/-- Modelled from the spec: the loader is external, so bodies and payloads
are carried as a recursive tagged union (object/array/string/number/
boolean/null); numeric literals are kept verbatim as text so numeric
precision is preserved exactly. -/
inductive Json
  | obj : List (String × Json) → Json
  | arr : List Json → Json
  | str : String → Json
  | num : String → Json
  | boolean : Bool → Json
  | null : Json

/-- A concrete response definition under a preset. -/
structure VariantDefinition where
  id : String
  status : Int
  headers : Option (List (String × String)) := none
  body : Option Json := none

/-- A named matching-condition bundle under a route, holding response
variants. Conditions are preserved verbatim for the out-of-scope matching
subsystem. -/
structure PresetDefinition where
  id : String
  params : Option (List (String × String)) := none
  headers : Option (List (String × String)) := none
  query : Option (List (String × String)) := none
  payload : Option Json := none
  variants : List VariantDefinition

/-- A stub endpoint definition; `method` is present iff transport is Http. -/
structure RouteDefinition where
  id : String
  url : String
  transport : Transport
  method : Option HttpMethod := none
  presets : List PresetDefinition

/-- A named, possibly-inheriting set of route references. `fromId` models
the `from` field (parent collection id); `entries` are strings of the form
`routeId:presetId:variantId`. -/
structure CollectionDefinition where
  id : String
  fromId : Option String := none
  entries : List String

/-- The immutable Definition Store: collections and routes keyed by id. -/
structure Store where
  collections : List CollectionDefinition
  routes : List RouteDefinition

def findCollection (s : Store) (id : String) : Option CollectionDefinition :=
  s.collections.find? (fun c => c.id == id)

def findRoute (s : Store) (id : String) : Option RouteDefinition :=
  s.routes.find? (fun r => r.id == id)

def findPreset (r : RouteDefinition) (id : String) : Option PresetDefinition :=
  r.presets.find? (fun p => p.id == id)

def findVariant (p : PresetDefinition) (id : String) : Option VariantDefinition :=
  p.variants.find? (fun v => v.id == id)

/-- The error taxonomy of the engine (spec section 7). -/
inductive MockError
  | DefinitionLoadError
  | CollectionNotFound (id : String)
  | InheritanceCycle (id : String)
  | InvalidRouteReference (s : String)
  | RouteNotFound (id : String)
  | PresetNotFound (routeId presetId : String)
  | VariantNotFound (routeId presetId variantId : String)
  | TransportMismatch (message : String)
deriving DecidableEq, Repr

/-- A parsed route reference. -/
structure RouteMeta where
  routeId : String
  presetId : String
  variantId : String
deriving DecidableEq, Repr

/-- Splits a character list on the colon separator (the structural core of
splitting a route-reference string on single-character separator actions). -/
def splitOnColon : List Char → List (List Char)
  | [] => [[]]
  | c :: rest =>
    let r := splitOnColon rest
    if c = ':' then [] :: r
    else
      match r with
      | [] => [[c]]
      | seg :: segs => (c :: seg) :: segs

/-- Modelled from the spec: parse a `routeId:presetId:variantId` reference;
anything that does not split into exactly three non-empty colon-separated
segments is an `InvalidRouteReference`. -/
def parseRef (s : String) : Except MockError RouteMeta :=
  match splitOnColon s.data with
  | [r, p, v] =>
    if r = [] ∨ p = [] ∨ v = [] then .error (.InvalidRouteReference s)
    else .ok ⟨⟨r⟩, ⟨p⟩, ⟨v⟩⟩
  | _ => .error (.InvalidRouteReference s)

/-- A resolved pointer `(presetId, variantId)` attached to a routeId. -/
abbrev RouteRef := String × String

/-- Ordered assignment map from routeId to its chosen (preset, variant):
iteration order is insertion order. -/
abbrev AssignmentMap := List (String × RouteRef)

/-- Lookup of the assignment for a routeId. -/
def mlookup : AssignmentMap → String → Option RouteRef
  | [], _ => none
  | (r, ref) :: rest, rid => if r = rid then some ref else mlookup rest rid

/-- Assignment into an ordered map: replaces the existing entry for the
routeId in place, else appends a new entry. -/
def massign : AssignmentMap → String → RouteRef → AssignmentMap
  | [], rid, ref => [(rid, ref)]
  | (r, x) :: rest, rid, ref =>
    if r = rid then (rid, ref) :: rest else (r, x) :: massign rest rid ref

/-- Insert only if the routeId is absent (inherited entries never shadow
closer ones); new entries are appended, preserving the parent order. -/
def minsertIfAbsent (m : AssignmentMap) (rid : String) (ref : RouteRef) :
    AssignmentMap :=
  match mlookup m rid with
  | some _ => m
  | none => m ++ [(rid, ref)]

/-- Modelled from the spec: build a collection ownMap by assigning its
entries in order; a later entry for the same routeId overwrites an earlier
one (last-wins locally). -/
def buildOwnMapAux : List String → AssignmentMap → Except MockError AssignmentMap
  | [], acc => .ok acc
  | e :: rest, acc =>
    match parseRef e with
    | .error err => .error err
    | .ok meta =>
      buildOwnMapAux rest (massign acc meta.routeId (meta.presetId, meta.variantId))

def buildOwnMap (entries : List String) : Except MockError AssignmentMap :=
  buildOwnMapAux entries []

/-- Merge the parent resolved map under the child own map: a parent entry
enters only where the child map has no entry for that routeId. -/
def mergeInherited (own : AssignmentMap) : AssignmentMap → AssignmentMap
  | [] => own
  | (rid, ref) :: rest => mergeInherited (minsertIfAbsent own rid ref) rest

/-- Modelled from the spec: walk the inheritance chain with explicit path
tracking (`visited`); revisiting a collection id on the current path is an
`InheritanceCycle`. Fuel bounds the recursion depth; the top-level entry
point supplies more fuel than there are collections, so fuel can only run
out on a cycle. -/
def resolveAux (s : Store) : Nat → List String → String → Except MockError AssignmentMap
  | 0, _, id => .error (.InheritanceCycle id)
  | fuel + 1, visited, id =>
    if visited.contains id then .error (.InheritanceCycle id)
    else
      match findCollection s id with
      | none => .error (.CollectionNotFound id)
      | some c =>
        match buildOwnMap c.entries with
        | .error e => .error e
        | .ok own =>
          match c.fromId with
          | none => .ok own
          | some pid =>
            match resolveAux s fuel (id :: visited) pid with
            | .error e => .error e
            | .ok pm => .ok (mergeInherited own pm)

/-- `resolve(collectionId, store)`: the flattened route assignment map of a
collection, own entries first, then newly introduced inherited entries. -/
def resolve (s : Store) (id : String) : Except MockError AssignmentMap :=
  resolveAux s (s.collections.length + 1) [] id

/-- The materialized view of one assignment: the full route definition, the
full chosen preset (with all its variants) and the chosen variant. -/
structure ActiveRoute where
  route : RouteDefinition
  preset : PresetDefinition
  variant : VariantDefinition

/-- Join one assignment against the store, failing with the respective
not-found error at the first absent level. -/
def materializeEntry (s : Store) (e : String × RouteRef) :
    Except MockError ActiveRoute :=
  match findRoute s e.1 with
  | none => .error (.RouteNotFound e.1)
  | some route =>
    match findPreset route e.2.1 with
    | none => .error (.PresetNotFound e.1 e.2.1)
    | some preset =>
      match findVariant preset e.2.2 with
      | none => .error (.VariantNotFound e.1 e.2.1 e.2.2)
      | some variant => .ok ⟨route, preset, variant⟩

/-- `materialize(map, store)`: one ActiveRoute per entry, in map order. -/
def materialize (m : AssignmentMap) (s : Store) : Except MockError (List ActiveRoute) :=
  match m with
  | [] => .ok []
  | e :: rest =>
    match materializeEntry s e with
    | .error err => .error err
    | .ok ar =>
      match materialize rest s with
      | .error err => .error err
      | .ok ars => .ok (ar :: ars)

/-- Stateless facade over one immutable store. -/
structure MocksManager where
  store : Store

/-- `resolveCollection(id) = materialize(resolve(id, store), store)`. -/
def resolveCollection (m : MocksManager) (id : String) :
    Except MockError (List ActiveRoute) :=
  match resolve m.store id with
  | .error e => .error e
  | .ok am => materialize am m.store

/-- Modelled from the spec: the external Definition Loader fails when the
collections source is unreadable or empty; a routes source matching zero
files is not an error and simply yields a store with no route definitions. -/
def loadStore (collections : List CollectionDefinition)
    (routes : List RouteDefinition) : Except MockError Store :=
  if collections.isEmpty then .error .DefinitionLoadError
  else .ok ⟨collections, routes⟩

/-- Stateful controller: the selected collection id (initially absent) and
the effective route-assignment map (initially empty). -/
structure MocksController where
  store : Store
  selectedCollectionId : Option String := none
  effectiveMap : AssignmentMap := []

/-- `currentCollection`: the selected collection id, or none if never set. -/
def currentCollection (c : MocksController) : Option String :=
  c.selectedCollectionId

/-- `getActiveRoutes()`: re-materializes the effective map on every call. -/
def getActiveRoutes (c : MocksController) : Except MockError (List ActiveRoute) :=
  materialize c.effectiveMap c.store

/-- `useCollection(id)`: resolve, then replace the effective map wholesale
and set the selected collection id; errors propagate without mutation. -/
def useCollection (c : MocksController) (id : String) :
    Except MockError MocksController :=
  match resolve c.store id with
  | .error e => .error e
  | .ok m => .ok { c with selectedCollectionId := some id, effectiveMap := m }

/-- The guidance message of a `TransportMismatch`, naming the correct
alternative method (`expected` is the transport the failing call requires). -/
def mismatchMessage (routeId : String) (expected : Transport) : String :=
  match expected with
  | .Http =>
    "Route " ++ routeId ++ " is a WebSocket route. Use " ++ "useSocket" ++ " instead"
  | .WebSocket =>
    "Route " ++ routeId ++ " is not a WebSocket route. Use " ++ "useRoutes" ++ " instead"

/-- Modelled from the spec: validate one route reference for a mutating
call expecting transport `t`: parse it, resolve route, preset and variant
in that order, then require the route transport matches `t`. -/
def validateRef (s : Store) (t : Transport) (ref : String) :
    Except MockError (String × RouteRef) :=
  match parseRef ref with
  | .error e => .error e
  | .ok meta =>
    match findRoute s meta.routeId with
    | none => .error (.RouteNotFound meta.routeId)
    | some route =>
      match findPreset route meta.presetId with
      | none => .error (.PresetNotFound meta.routeId meta.presetId)
      | some preset =>
        match findVariant preset meta.variantId with
        | none => .error (.VariantNotFound meta.routeId meta.presetId meta.variantId)
        | some _ =>
          if route.transport = t then
            .ok (meta.routeId, (meta.presetId, meta.variantId))
          else .error (.TransportMismatch (mismatchMessage meta.routeId t))

/-- Validate a whole batch into a staged list before any mutation. -/
def stageRefs (s : Store) (t : Transport) : List String →
    Except MockError (List (String × RouteRef))
  | [] => .ok []
  | r :: rest =>
    match validateRef s t r with
    | .error e => .error e
    | .ok e =>
      match stageRefs s t rest with
      | .error err => .error err
      | .ok es => .ok (e :: es)

/-- Commit a staged list into the live map, overwriting entries that share
a routeId and appending new ones. -/
def commitStaged (m : AssignmentMap) : List (String × RouteRef) → AssignmentMap
  | [] => m
  | (rid, ref) :: rest => commitStaged (massign m rid ref) rest

/-- `useRoutes(refs)`: validate every ref (transport Http) into a staged
list, then merge; any invalid ref fails the whole call before mutation. -/
def useRoutes (c : MocksController) (refs : List String) :
    Except MockError MocksController :=
  match stageRefs c.store .Http refs with
  | .error e => .error e
  | .ok staged => .ok { c with effectiveMap := commitStaged c.effectiveMap staged }

/-- `useSocket(refs)`: identical to `useRoutes` but requires WebSocket. -/
def useSocket (c : MocksController) (refs : List String) :
    Except MockError MocksController :=
  match stageRefs c.store .WebSocket refs with
  | .error e => .error e
  | .ok staged => .ok { c with effectiveMap := commitStaged c.effectiveMap staged }

/-- Modelled from the spec: construct a controller over a loaded store,
optionally auto-selecting a default collection (propagating its errors). -/
def mkController (collections : List CollectionDefinition)
    (routes : List RouteDefinition) (defaultId : Option String) :
    Except MockError MocksController :=
  match loadStore collections routes with
  | .error e => .error e
  | .ok s =>
    match defaultId with
    | none => .ok ⟨s, none, []⟩
    | some id => useCollection ⟨s, none, []⟩ id

/-- The mutating operations of the controller state machine. -/
inductive ControllerOp
  | opUseCollection (id : String)
  | opUseRoutes (refs : List String)
  | opUseSocket (refs : List String)

def dispatchOp (c : MocksController) : ControllerOp → Except MockError MocksController
  | .opUseCollection id => useCollection c id
  | .opUseRoutes refs => useRoutes c refs
  | .opUseSocket refs => useSocket c refs

/-- Run one mutating operation: a failed call is a self-loop (the state is
kept) and the error is reported beside the state. -/
def runOp (c : MocksController) (op : ControllerOp) :
    MocksController × Option MockError :=
  match dispatchOp c op with
  | .ok next => (next, none)
  | .error e => (c, some e)

/-- Controller states reachable from a freshly constructed controller over
a store by any sequence of mutating calls (failed calls keep the state). -/
inductive Reachable (s : Store) : MocksController → Prop
  | init : Reachable s ⟨s, none, []⟩
  | step (c : MocksController) (op : ControllerOp) :
      Reachable s c → Reachable s (runOp c op).1

/-- A world of several independent controller instances; one mutating call
acts on the instance at index `i` only. -/
def stepWorld (ws : List MocksController) (i : Nat) (op : ControllerOp) :
    List MocksController :=
  match ws.get? i with
  | none => ws
  | some c => ws.set i (runOp c op).1

/-- First defined value along a list of optional lookups. -/
def ofirst {α : Type} : Option α → Option α → Option α
  | some x, _ => some x
  | none, b => b

def firstDefined {α : Type} : List (Option α) → Option α
  | [] => none
  | o :: rest => ofirst o (firstDefined rest)

/-- The chain of per-collection own maps (closest first) along the
inheritance chain of a collection, mirroring `resolveAux` exactly. -/
def ownChainAux (s : Store) : Nat → List String → String →
    Except MockError (List AssignmentMap)
  | 0, _, id => .error (.InheritanceCycle id)
  | fuel + 1, visited, id =>
    if visited.contains id then .error (.InheritanceCycle id)
    else
      match findCollection s id with
      | none => .error (.CollectionNotFound id)
      | some c =>
        match buildOwnMap c.entries with
        | .error e => .error e
        | .ok own =>
          match c.fromId with
          | none => .ok [own]
          | some pid =>
            match ownChainAux s fuel (id :: visited) pid with
            | .error e => .error e
            | .ok rest => .ok (own :: rest)

def ownChain (s : Store) (id : String) : Except MockError (List AssignmentMap) :=
  ownChainAux s (s.collections.length + 1) [] id

/-- The assignment of the last entry of an own-entries list that parses to
a given routeId (later entries take priority). -/
def lastAssign : List String → String → Option RouteRef
  | [], _ => none
  | e :: rest, rid =>
    ofirst (lastAssign rest rid)
      (match parseRef e with
       | .ok meta =>
         if meta.routeId = rid then some (meta.presetId, meta.variantId) else none
       | .error _ => none)

/-- Whether a mutating call failed specifically with a TransportMismatch. -/
def isTransportMismatch : Except MockError MocksController → Bool
  | .error (.TransportMismatch _) => true
  | _ => false

/-! Concrete fixtures mirroring the e2e test fixture files, used by the
witnesses and counterexamples below. -/

def usersApi : RouteDefinition :=
  { id := "users-api", url := "/api/users", transport := .Http, method := some .Get,
    presets := [
      { id := "success", variants := [
          { id := "default", status := 200 },
          { id := "empty-list", status := 200 } ] },
      { id := "error", variants := [ { id := "not-found", status := 404 } ] } ] }

def productsApi : RouteDefinition :=
  { id := "products-api", url := "/api/products", transport := .Http,
    method := some .Get,
    presets := [ { id := "success", variants := [ { id := "default", status := 200 } ] } ] }

def ordersApi : RouteDefinition :=
  { id := "orders-api", url := "/api/orders", transport := .Http,
    method := some .Post,
    presets := [ { id := "success", variants := [ { id := "default", status := 201 } ] } ] }

def paymentsApi : RouteDefinition :=
  { id := "payments-api", url := "/api/payments", transport := .Http,
    method := some .Post,
    presets := [ { id := "success", variants := [ { id := "default", status := 200 } ] } ] }

def wsNotifications : RouteDefinition :=
  { id := "ws-notifications", url := "/ws/notifications", transport := .WebSocket,
    presets := [ { id := "default", variants := [ { id := "message", status := 200 } ] } ] }

def wsChat : RouteDefinition :=
  { id := "ws-chat", url := "/ws/chat", transport := .WebSocket,
    presets := [ { id := "default", variants := [
        { id := "connected", status := 200 },
        { id := "message", status := 200 } ] } ] }

def demoCollections : List CollectionDefinition :=
  [ { id := "base",
      entries := ["users-api:success:default", "products-api:success:default"] },
    { id := "extended", fromId := some "base",
      entries := ["users-api:error:not-found", "orders-api:success:default"] },
    { id := "deeply-nested", fromId := some "extended",
      entries := ["payments-api:success:default"] },
    { id := "standalone",
      entries := ["users-api:success:default", "users-api:error:not-found"] },
    { id := "with-websocket",
      entries := ["ws-notifications:default:message"] } ]

def demoRoutes : List RouteDefinition :=
  [usersApi, productsApi, ordersApi, paymentsApi, wsNotifications, wsChat]

def demoStore : Store :=
  { collections := demoCollections, routes := demoRoutes }

/-- A store whose collections reference a route definition the (empty)
routes source never provided — the zero-matching-glob situation. -/
def brokenStore : Store :=
  { collections := [ { id := "broken", entries := ["ghost-route:p:v"] } ],
    routes := [] }

/-- The controller state reached from a fresh controller over `brokenStore`
by the (successful) call `useCollection "broken"`. -/
def brokenController : MocksController :=
  { store := brokenStore, selectedCollectionId := some "broken",
    effectiveMap := [("ghost-route", ("p", "v"))] }

/-- The assignment map the `base` collection resolves to. -/
def baseMap : AssignmentMap :=
  [("users-api", ("success", "default")), ("products-api", ("success", "default"))]

/-- The assignment map the `extended` collection resolves to. -/
def extendedMap : AssignmentMap :=
  [("users-api", ("error", "not-found")), ("orders-api", ("success", "default")),
   ("products-api", ("success", "default"))]

/-- A freshly constructed controller over the demo store. -/
def demoCtrl : MocksController := { store := demoStore }

/-- A controller that has selected the `base` collection. -/
def demoCtrlBase : MocksController :=
  { store := demoStore, selectedCollectionId := some "base", effectiveMap := baseMap }

/-- A controller with a prior ad-hoc override overlay on top of `base`. -/
def overriddenCtrl : MocksController :=
  { store := demoStore, selectedCollectionId := some "base",
    effectiveMap := [("orders-api", ("success", "default"))] }

/-- The controller state after a successful `useCollection "extended"`. -/
def extendedCtrl : MocksController :=
  { store := demoStore, selectedCollectionId := some "extended",
    effectiveMap := extendedMap }

/-- The demo collections over an empty routes source (zero-matching glob). -/
def emptyRoutesStore : Store := { collections := demoCollections, routes := [] }

/-- The first active route of the resolved `base` collection. -/
def arUsersBase : ActiveRoute :=
  { route := usersApi,
    preset := { id := "success", variants := [
        { id := "default", status := 200 },
        { id := "empty-list", status := 200 } ] },
    variant := { id := "default", status := 200 } }

/-- The second active route of the resolved `base` collection. -/
def arProductsBase : ActiveRoute :=
  { route := productsApi,
    preset := { id := "success", variants := [ { id := "default", status := 200 } ] },
    variant := { id := "default", status := 200 } }

/-! Helper lemmas about the ordered assignment maps and the resolver. -/

theorem ofirst_none_right {α : Type} (a : Option α) : ofirst a none = a := by
  cases a <;> rfl

theorem ofirst_assoc {α : Type} (a b c : Option α) :
    ofirst (ofirst a b) c = ofirst a (ofirst b c) := by
  cases a <;> rfl

theorem ofirst_if {α : Type} (c : Prop) [Decidable c] (v : α) (x : Option α) :
    ofirst (if c then some v else none) x = if c then some v else x := by
  split <;> rfl

theorem mlookup_massign (m : AssignmentMap) (rid : String) (ref : RouteRef)
    (q : String) :
    mlookup (massign m rid ref) q = if rid = q then some ref else mlookup m q := by
  induction m with
  | nil => simp [massign, mlookup]
  | cons hd t ih =>
    obtain ⟨r, x⟩ := hd
    by_cases hr : r = rid
    · subst hr
      simp only [massign, if_pos rfl, mlookup]
      split_ifs <;> simp_all [mlookup]
    · simp only [massign, if_neg hr, mlookup, ih]
      split_ifs <;> simp_all

theorem mlookup_eq_none_iff (m : AssignmentMap) (q : String) :
    mlookup m q = none ↔ q ∉ m.map Prod.fst := by
  induction m with
  | nil => simp [mlookup]
  | cons hd t ih =>
    obtain ⟨r, x⟩ := hd
    by_cases hr : r = q
    · subst hr; simp [mlookup]
    · simp [mlookup, hr, ih, Ne.symm hr]

theorem keys_massign (m : AssignmentMap) (rid : String) (ref : RouteRef) :
    (massign m rid ref).map Prod.fst =
      if mlookup m rid = none then m.map Prod.fst ++ [rid] else m.map Prod.fst := by
  induction m with
  | nil => simp [massign, mlookup]
  | cons hd t ih =>
    obtain ⟨r, x⟩ := hd
    by_cases hr : r = rid
    · subst hr
      simp [massign, mlookup]
    · simp only [massign, if_neg hr, mlookup, List.map_cons, ih]
      have hrr : ¬r = rid := hr
      split_ifs <;> simp_all

theorem nodup_snoc {α : Type} (l : List α) (a : α) (h1 : l.Nodup) (h2 : a ∉ l) :
    (l ++ [a]).Nodup := by
  induction l with
  | nil => simp
  | cons x t ih =>
    rcases List.nodup_cons.mp h1 with ⟨hx, ht⟩
    refine List.nodup_cons.mpr ⟨?_, ih ht (fun hc => h2 (List.mem_cons_of_mem _ hc))⟩
    intro hx2
    rcases List.mem_append.mp hx2 with h | h
    · exact hx h
    · exact h2 (List.mem_singleton.mp h ▸ List.mem_cons_self _ _)

theorem nodup_keys_massign (m : AssignmentMap) (rid : String) (ref : RouteRef)
    (h : (m.map Prod.fst).Nodup) : ((massign m rid ref).map Prod.fst).Nodup := by
  rw [keys_massign]
  split_ifs with hn
  · exact nodup_snoc _ _ h ((mlookup_eq_none_iff m rid).mp hn)
  · exact h

theorem mlookup_append (m₁ m₂ : AssignmentMap) (q : String) :
    mlookup (m₁ ++ m₂) q = ofirst (mlookup m₁ q) (mlookup m₂ q) := by
  induction m₁ with
  | nil => simp [mlookup, ofirst]
  | cons hd t ih =>
    obtain ⟨r, x⟩ := hd
    by_cases hr : r = q <;> simp [mlookup, hr, ih, ofirst]

theorem mlookup_minsertIfAbsent (m : AssignmentMap) (rid : String) (ref : RouteRef)
    (q : String) :
    mlookup (minsertIfAbsent m rid ref) q =
      ofirst (mlookup m q) (if rid = q then some ref else none) := by
  unfold minsertIfAbsent
  cases hl : mlookup m rid with
  | some v =>
    by_cases hq : rid = q
    · subst hq; simp [hl, ofirst]
    · simp [if_neg hq, ofirst_none_right]
  | none =>
    rw [mlookup_append]
    simp [mlookup]

theorem mlookup_mergeInherited (parent : AssignmentMap) :
    ∀ (own : AssignmentMap) (q : String),
      mlookup (mergeInherited own parent) q =
        ofirst (mlookup own q) (mlookup parent q) := by
  induction parent with
  | nil => intro own q; simp [mergeInherited, mlookup, ofirst_none_right]
  | cons hd rest ih =>
    intro own q
    obtain ⟨r, ref⟩ := hd
    show mlookup (mergeInherited (minsertIfAbsent own r ref) rest) q = _
    rw [ih, mlookup_minsertIfAbsent, ofirst_assoc, ofirst_if]
    show _ = ofirst (mlookup own q) (if r = q then some ref else mlookup rest q)
    split_ifs <;> rfl

theorem buildOwnMapAux_lookup (entries : List String) :
    ∀ (acc m : AssignmentMap), buildOwnMapAux entries acc = .ok m →
      ∀ q, mlookup m q = ofirst (lastAssign entries q) (mlookup acc q) := by
  induction entries with
  | nil =>
    intro acc m h q
    simp only [buildOwnMapAux, Except.ok.injEq] at h
    subst h
    simp [lastAssign, ofirst]
  | cons e rest ih =>
    intro acc m h q
    simp only [buildOwnMapAux] at h
    cases hp : parseRef e with
    | error err => simp [hp] at h
    | ok meta =>
      simp only [hp] at h
      have hm := ih _ _ h q
      rw [hm, mlookup_massign]
      simp only [lastAssign, hp, ofirst_assoc, ofirst_if]

theorem buildOwnMap_lookup (entries : List String) (m : AssignmentMap)
    (h : buildOwnMap entries = .ok m) (q : String) :
    mlookup m q = lastAssign entries q := by
  have := buildOwnMapAux_lookup entries [] m h q
  simpa [mlookup, ofirst_none_right] using this

theorem buildOwnMapAux_nodup (entries : List String) :
    ∀ (acc m : AssignmentMap), buildOwnMapAux entries acc = .ok m →
      (acc.map Prod.fst).Nodup → (m.map Prod.fst).Nodup := by
  induction entries with
  | nil =>
    intro acc m h hn
    simp only [buildOwnMapAux, Except.ok.injEq] at h
    exact h ▸ hn
  | cons e rest ih =>
    intro acc m h hn
    simp only [buildOwnMapAux] at h
    cases hp : parseRef e with
    | error err => simp [hp] at h
    | ok meta =>
      simp only [hp] at h
      exact ih _ _ h (nodup_keys_massign _ _ _ hn)

theorem buildOwnMap_nodup (entries : List String) (m : AssignmentMap)
    (h : buildOwnMap entries = .ok m) : (m.map Prod.fst).Nodup :=
  buildOwnMapAux_nodup entries [] m h (by simp)

theorem resolveAux_chain (s : Store) :
    ∀ (fuel : Nat) (visited : List String) (id : String) (m : AssignmentMap),
      resolveAux s fuel visited id = .ok m →
      ∃ oms, ownChainAux s fuel visited id = .ok oms ∧
        ∀ q, mlookup m q = firstDefined (oms.map (fun om => mlookup om q)) := by
  intro fuel
  induction fuel with
  | zero => intro visited id m h; exact absurd h (by simp [resolveAux])
  | succ fuel ih =>
    intro visited id m h
    simp only [resolveAux] at h
    by_cases hv : visited.contains id
    · rw [if_pos hv] at h; exact absurd h (by simp)
    · rw [if_neg hv] at h
      have hv2 : id ∉ visited := by simpa using hv
      cases hc : findCollection s id with
      | none => simp [hc] at h
      | some c =>
        simp only [hc] at h
        cases hb : buildOwnMap c.entries with
        | error e => simp [hb] at h
        | ok own =>
          simp only [hb] at h
          cases hf : c.fromId with
          | none =>
            simp only [hf, Except.ok.injEq] at h
            subst h
            refine ⟨[own], ?_, ?_⟩
            · simp [ownChainAux, if_neg hv, hv2, hc, hb, hf]
            · intro q
              simp [firstDefined, ofirst_none_right]
          | some pid =>
            simp only [hf] at h
            cases hr : resolveAux s fuel (id :: visited) pid with
            | error e => simp [hr] at h
            | ok pm =>
              simp only [hr, Except.ok.injEq] at h
              subst h
              obtain ⟨oms, hchain, hq⟩ := ih (id :: visited) pid pm hr
              refine ⟨own :: oms, ?_, ?_⟩
              · simp [ownChainAux, if_neg hv, hv2, hc, hb, hf, hchain]
              · intro q
                rw [mlookup_mergeInherited, hq q]
                rfl

theorem stageRefs_error_of_mem (s : Store) (t : Transport) :
    ∀ (refs : List String) (r : String), r ∈ refs →
      ∀ (e : MockError), validateRef s t r = .error e →
        ∃ err, stageRefs s t refs = .error err := by
  intro refs
  induction refs with
  | nil => intro r hr; exact absurd hr (by simp)
  | cons x rest ih =>
    intro r hr e he
    rcases List.mem_cons.mp hr with h | h
    · subst h
      exact ⟨e, by simp [stageRefs, he]⟩
    · cases hx : validateRef s t x with
      | error ex => exact ⟨ex, by simp [stageRefs, hx]⟩
      | ok vx =>
        obtain ⟨err, herr⟩ := ih r h e he
        exact ⟨err, by simp [stageRefs, hx, herr]⟩

theorem stageRefs_ok_mem (s : Store) (t : Transport) :
    ∀ (refs : List String) (staged : List (String × RouteRef)),
      stageRefs s t refs = .ok staged →
      ∀ a, a ∈ staged → ∃ r, r ∈ refs ∧ validateRef s t r = .ok a := by
  intro refs
  induction refs with
  | nil =>
    intro staged h a ha
    simp only [stageRefs, Except.ok.injEq] at h
    subst h
    exact absurd ha (by simp)
  | cons x rest ih =>
    intro staged h a ha
    simp only [stageRefs] at h
    cases hx : validateRef s t x with
    | error e => simp [hx] at h
    | ok vx =>
      simp only [hx] at h
      cases hrest : stageRefs s t rest with
      | error e => simp [hrest] at h
      | ok es =>
        simp only [hrest, Except.ok.injEq] at h
        subst h
        rcases List.mem_cons.mp ha with h | h
        · exact ⟨x, List.mem_cons_self _ _, h ▸ hx⟩
        · obtain ⟨r, hr, hv⟩ := ih es hrest a h
          exact ⟨r, List.mem_cons_of_mem _ hr, hv⟩

theorem validateRef_materializes (s : Store) (t : Transport) (ref : String)
    (a : String × RouteRef) (h : validateRef s t ref = .ok a) :
    ∃ ar, materializeEntry s a = .ok ar := by
  simp only [validateRef] at h
  cases hp : parseRef ref with
  | error e => simp [hp] at h
  | ok meta =>
    simp only [hp] at h
    cases hr : findRoute s meta.routeId with
    | none => simp [hr] at h
    | some route =>
      simp only [hr] at h
      cases hpr : findPreset route meta.presetId with
      | none => simp [hpr] at h
      | some preset =>
        simp only [hpr] at h
        cases hv : findVariant preset meta.variantId with
        | none => simp [hv] at h
        | some variant =>
          simp only [hv] at h
          by_cases ht : route.transport = t
          · rw [if_pos ht] at h
            simp only [Except.ok.injEq] at h
            subst h
            exact ⟨⟨route, preset, variant⟩, by simp [materializeEntry, hr, hpr, hv]⟩
          · rw [if_neg ht] at h
            exact absurd h (by simp)

theorem mem_massign (m : AssignmentMap) (rid : String) (ref : RouteRef)
    (e : String × RouteRef) (h : e ∈ massign m rid ref) :
    e ∈ m ∨ e = (rid, ref) := by
  induction m with
  | nil => simp only [massign] at h; simp at h; exact Or.inr h
  | cons hd t ih =>
    obtain ⟨r, x⟩ := hd
    by_cases hr : r = rid
    · subst hr
      simp only [massign, if_pos rfl] at h
      rcases List.mem_cons.mp h with h | h
      · exact Or.inr h
      · exact Or.inl (List.mem_cons_of_mem _ h)
    · simp only [massign, if_neg hr] at h
      rcases List.mem_cons.mp h with h | h
      · exact Or.inl (h ▸ List.mem_cons_self _ _)
      · rcases ih h with h | h
        · exact Or.inl (List.mem_cons_of_mem _ h)
        · exact Or.inr h

theorem mem_commitStaged (staged : List (String × RouteRef)) :
    ∀ (m : AssignmentMap) (e : String × RouteRef), e ∈ commitStaged m staged →
      e ∈ m ∨ e ∈ staged := by
  induction staged with
  | nil => intro m e h; exact Or.inl h
  | cons hd rest ih =>
    intro m e h
    obtain ⟨rid, ref⟩ := hd
    rcases ih (massign m rid ref) e h with h | h
    · rcases mem_massign m rid ref e h with h | h
      · exact Or.inl h
      · exact Or.inr (h ▸ List.mem_cons_self _ _)
    · exact Or.inr (List.mem_cons_of_mem _ h)

theorem materialize_ok_of_entries (s : Store) :
    ∀ (m : AssignmentMap), (∀ e ∈ m, ∃ ar, materializeEntry s e = .ok ar) →
      ∃ ars, materialize m s = .ok ars := by
  intro m
  induction m with
  | nil => intro _; exact ⟨[], rfl⟩
  | cons e rest ih =>
    intro h
    obtain ⟨ar, har⟩ := h e (List.mem_cons_self _ _)
    obtain ⟨ars, hars⟩ := ih (fun x hx => h x (List.mem_cons_of_mem _ hx))
    exact ⟨ar :: ars, by simp [materialize, har, hars]⟩

theorem mem_materialize (s : Store) :
    ∀ (m : AssignmentMap) (ars : List ActiveRoute), materialize m s = .ok ars →
      ∀ ar ∈ ars, ∃ e, e ∈ m ∧ materializeEntry s e = .ok ar := by
  intro m
  induction m with
  | nil =>
    intro ars h ar har
    simp only [materialize, Except.ok.injEq] at h
    subst h
    exact absurd har (by simp)
  | cons e rest ih =>
    intro ars h ar har
    simp only [materialize] at h
    cases he : materializeEntry s e with
    | error err => simp [he] at h
    | ok ar0 =>
      simp only [he] at h
      cases hrest : materialize rest s with
      | error err => simp [hrest] at h
      | ok ars0 =>
        simp only [hrest, Except.ok.injEq] at h
        subst h
        rcases List.mem_cons.mp har with h | h
        · exact ⟨e, List.mem_cons_self _ _, h ▸ he⟩
        · obtain ⟨e0, he0, hm⟩ := ih ars0 hrest ar h
          exact ⟨e0, List.mem_cons_of_mem _ he0, hm⟩

theorem materializeEntry_mem (s : Store) (e : String × RouteRef) (ar : ActiveRoute)
    (h : materializeEntry s e = .ok ar) :
    ar.route ∈ s.routes ∧ ar.preset ∈ ar.route.presets ∧
      ar.variant ∈ ar.preset.variants := by
  simp only [materializeEntry] at h
  cases hr : findRoute s e.1 with
  | none => simp [hr] at h
  | some route =>
    simp only [hr] at h
    cases hp : findPreset route e.2.1 with
    | none => simp [hp] at h
    | some preset =>
      simp only [hp] at h
      cases hv : findVariant preset e.2.2 with
      | none => simp [hv] at h
      | some variant =>
        simp only [hv, Except.ok.injEq] at h
        subst h
        exact ⟨List.mem_of_find?_eq_some hr,
          List.mem_of_find?_eq_some hp, List.mem_of_find?_eq_some hv⟩

theorem getq_set_ne {α : Type} :
    ∀ (l : List α) (i j : Nat) (a : α), i ≠ j → (l.set i a).get? j = l.get? j := by
  intro l
  induction l with
  | nil => intro i j a _; simp
  | cons x t ih =>
    intro i j a hij
    cases i with
    | zero =>
      cases j with
      | zero => exact absurd rfl hij
      | succ k => simp [List.set]
    | succ i0 =>
      cases j with
      | zero => simp [List.set]
      | succ k =>
        simp only [List.set, List.get?]
        exact ih i0 k a (fun hc => hij (by rw [hc]))

/-! The claims. -/

/-- C1: for every batch of route-reference strings passed to `useRoutes` or
`useSocket`, if any reference in the batch fails validation (malformed
reference, unknown route/preset/variant, or wrong transport), the whole
call fails and the controller state is unchanged: `effectiveMap` and
`selectedCollectionId` (and hence `getActiveRoutes` and
`currentCollection`) keep their pre-call values, with no partial merge. -/
theorem useRoutes_useSocket_atomic (c : MocksController) (refs : List String) :
    ((∃ r ∈ refs, ∃ e, validateRef c.store .Http r = .error e) →
      ∃ err, useRoutes c refs = .error err ∧
        (runOp c (.opUseRoutes refs)).1.effectiveMap = c.effectiveMap ∧
        (runOp c (.opUseRoutes refs)).1.selectedCollectionId = c.selectedCollectionId ∧
        getActiveRoutes (runOp c (.opUseRoutes refs)).1 = getActiveRoutes c ∧
        currentCollection (runOp c (.opUseRoutes refs)).1 = currentCollection c) ∧
    ((∃ r ∈ refs, ∃ e, validateRef c.store .WebSocket r = .error e) →
      ∃ err, useSocket c refs = .error err ∧
        (runOp c (.opUseSocket refs)).1.effectiveMap = c.effectiveMap ∧
        (runOp c (.opUseSocket refs)).1.selectedCollectionId = c.selectedCollectionId ∧
        getActiveRoutes (runOp c (.opUseSocket refs)).1 = getActiveRoutes c ∧
        currentCollection (runOp c (.opUseSocket refs)).1 = currentCollection c) := by
  constructor
  · rintro ⟨r, hr, e, he⟩
    obtain ⟨err, herr⟩ := stageRefs_error_of_mem c.store .Http refs r hr e he
    have hu : useRoutes c refs = .error err := by simp [useRoutes, herr]
    have hrun : (runOp c (.opUseRoutes refs)).1 = c := by
      simp [runOp, dispatchOp, hu]
    exact ⟨err, hu, by rw [hrun], by rw [hrun], by rw [hrun], by rw [hrun]⟩
  · rintro ⟨r, hr, e, he⟩
    obtain ⟨err, herr⟩ := stageRefs_error_of_mem c.store .WebSocket refs r hr e he
    have hu : useSocket c refs = .error err := by simp [useSocket, herr]
    have hrun : (runOp c (.opUseSocket refs)).1 = c := by
      simp [runOp, dispatchOp, hu]
    exact ⟨err, hu, by rw [hrun], by rw [hrun], by rw [hrun], by rw [hrun]⟩

/-- Witness for C1 at a concrete input: a batch with one valid and one
unknown reference fails and leaves the controller exactly as before. -/
theorem useRoutes_useSocket_atomic_witness :
    (∃ r ∈ ["users-api:success:empty-list", "nonexistent:preset:variant"],
      ∃ e, validateRef demoCtrlBase.store .Http r = .error e) ∧
    (∃ err,
      useRoutes demoCtrlBase
          ["users-api:success:empty-list", "nonexistent:preset:variant"] = .error err ∧
      (runOp demoCtrlBase
          (.opUseRoutes ["users-api:success:empty-list", "nonexistent:preset:variant"])).1.effectiveMap =
        demoCtrlBase.effectiveMap ∧
      (runOp demoCtrlBase
          (.opUseRoutes ["users-api:success:empty-list", "nonexistent:preset:variant"])).1.selectedCollectionId =
        demoCtrlBase.selectedCollectionId ∧
      getActiveRoutes (runOp demoCtrlBase
          (.opUseRoutes ["users-api:success:empty-list", "nonexistent:preset:variant"])).1 =
        getActiveRoutes demoCtrlBase ∧
      currentCollection (runOp demoCtrlBase
          (.opUseRoutes ["users-api:success:empty-list", "nonexistent:preset:variant"])).1 =
        currentCollection demoCtrlBase) :=
  have h : ∃ r ∈ ["users-api:success:empty-list", "nonexistent:preset:variant"],
      ∃ e, validateRef demoCtrlBase.store .Http r = .error e :=
    ⟨"nonexistent:preset:variant", by simp, ⟨.RouteNotFound "nonexistent", rfl⟩⟩
  ⟨h, (useRoutes_useSocket_atomic demoCtrlBase
    ["users-api:success:empty-list", "nonexistent:preset:variant"]).1 h⟩

/-- C2: on a successful `resolve`, the assignment of every routeId is the
one of the closest collection on the inheritance chain that defines it
(the chain of per-collection own maps is `ownChain`, closest first): a
child's own entry wins over anything inherited at any depth, an ancestor
entry surfaces only if no closer collection defines that routeId, and an
override at one level is observed transitively by every descendant that
does not itself override that routeId. -/
theorem resolve_chain_override (s : Store) (id : String) (m : AssignmentMap)
    (h : resolve s id = .ok m) :
    ∃ oms, ownChain s id = .ok oms ∧
      ∀ q, mlookup m q = firstDefined (oms.map (fun om => mlookup om q)) :=
  resolveAux_chain s (s.collections.length + 1) [] id m h

/-- Witness for C2: the three-level chain base ← extended ← deeply-nested
of the demo store resolves, and its lookups follow the chain of own maps. -/
theorem resolve_chain_override_witness :
    resolve demoStore "deeply-nested" = .ok
      [("payments-api", ("success", "default")), ("users-api", ("error", "not-found")),
       ("orders-api", ("success", "default")), ("products-api", ("success", "default"))] ∧
    (∃ oms, ownChain demoStore "deeply-nested" = .ok oms ∧
      ∀ q, mlookup
          [("payments-api", ("success", "default")), ("users-api", ("error", "not-found")),
           ("orders-api", ("success", "default")), ("products-api", ("success", "default"))] q =
        firstDefined (oms.map (fun om => mlookup om q))) :=
  ⟨rfl, resolve_chain_override demoStore "deeply-nested" _ rfl⟩

/-- C3: within a single collection (no `from`), duplicate own entries are
deduplicated by routeId alone with last-wins semantics: the resolved map
looks up each routeId to the last entry carrying it, and contains exactly
one entry per distinct routeId (its keys are nodup). -/
theorem ownEntries_lastWins (s : Store) (id : String) (c : CollectionDefinition)
    (m : AssignmentMap) (hc : findCollection s id = some c) (hf : c.fromId = none)
    (h : resolve s id = .ok m) :
    (∀ q, mlookup m q = lastAssign c.entries q) ∧ (m.map Prod.fst).Nodup := by
  simp only [resolve, resolveAux] at h
  simp only [List.contains, List.elem] at h
  rw [if_neg (by simp)] at h
  simp only [hc] at h
  cases hb : buildOwnMap c.entries with
  | error e => simp [hb] at h
  | ok own =>
    simp only [hb, hf, Except.ok.injEq] at h
    subst h
    exact ⟨buildOwnMap_lookup c.entries own hb, buildOwnMap_nodup c.entries own hb⟩

/-- Witness for C3: the `standalone` collection lists `users-api` twice;
the later entry wins and the resolved map has a single entry. -/
theorem ownEntries_lastWins_witness :
    findCollection demoStore "standalone" =
      some { id := "standalone",
             entries := ["users-api:success:default", "users-api:error:not-found"] } ∧
    resolve demoStore "standalone" = .ok [("users-api", ("error", "not-found"))] ∧
    ((∀ q, mlookup [("users-api", ("error", "not-found"))] q =
        lastAssign ["users-api:success:default", "users-api:error:not-found"] q) ∧
      (([("users-api", ("error", "not-found"))] : AssignmentMap).map Prod.fst).Nodup) :=
  ⟨rfl, rfl,
    ownEntries_lastWins demoStore "standalone"
      { id := "standalone",
        entries := ["users-api:success:default", "users-api:error:not-found"] }
      [("users-api", ("error", "not-found"))] rfl rfl rfl⟩

/-- Counterexample for C4 as stated: a reference that names a WebSocket
route but a nonexistent preset makes `useRoutes` fail with
`PresetNotFound`, not with a `TransportMismatch` naming `useSocket`
(validation resolves route, preset and variant before it checks the
transport), so the claim's universal form over every reference naming a
WebSocket route fails. -/
theorem transport_guard_counterexample :
    useRoutes demoCtrl ["ws-notifications:no-such-preset:message"] =
      .error (.PresetNotFound "ws-notifications" "no-such-preset") ∧
    isTransportMismatch
      (useRoutes demoCtrl ["ws-notifications:no-such-preset:message"]) = false :=
  ⟨rfl, rfl⟩

/-- C4 (amended): for every route reference whose route, preset and variant
all resolve against the store, if the route's transport is WebSocket then
`useRoutes` on it fails with a `TransportMismatch` whose message names
`useSocket` as the correct alternative; symmetrically, if the transport is
Http then `useSocket` fails with a message naming `useRoutes`. -/
theorem transport_guard (c : MocksController) (ref : String) (meta : RouteMeta)
    (route : RouteDefinition) (preset : PresetDefinition) (variant : VariantDefinition)
    (hp : parseRef ref = .ok meta)
    (hr : findRoute c.store meta.routeId = some route)
    (hpr : findPreset route meta.presetId = some preset)
    (hv : findVariant preset meta.variantId = some variant) :
    (route.transport = .WebSocket →
      useRoutes c [ref] =
        .error (.TransportMismatch (mismatchMessage meta.routeId .Http)) ∧
      ∃ pre post, mismatchMessage meta.routeId .Http = pre ++ "useSocket" ++ post) ∧
    (route.transport = .Http →
      useSocket c [ref] =
        .error (.TransportMismatch (mismatchMessage meta.routeId .WebSocket)) ∧
      ∃ pre post, mismatchMessage meta.routeId .WebSocket = pre ++ "useRoutes" ++ post) := by
  constructor
  · intro ht
    have hval : validateRef c.store .Http ref =
        .error (.TransportMismatch (mismatchMessage meta.routeId .Http)) := by
      simp [validateRef, hp, hr, hpr, hv, ht]
    refine ⟨by simp [useRoutes, stageRefs, hval], ?_⟩
    exact ⟨"Route " ++ meta.routeId ++ " is a WebSocket route. Use ", " instead", rfl⟩
  · intro ht
    have hval : validateRef c.store .WebSocket ref =
        .error (.TransportMismatch (mismatchMessage meta.routeId .WebSocket)) := by
      simp [validateRef, hp, hr, hpr, hv, ht]
    refine ⟨by simp [useSocket, stageRefs, hval], ?_⟩
    exact ⟨"Route " ++ meta.routeId ++ " is not a WebSocket route. Use ", " instead", rfl⟩

/-- Witness for C4 at a fully valid WebSocket reference: `useRoutes` fails
with a TransportMismatch whose message contains `useSocket`. -/
theorem transport_guard_witness :
    parseRef "ws-notifications:default:message" =
      .ok ⟨"ws-notifications", "default", "message"⟩ ∧
    wsNotifications.transport = .WebSocket ∧
    (useRoutes demoCtrl ["ws-notifications:default:message"] =
        .error (.TransportMismatch (mismatchMessage "ws-notifications" .Http)) ∧
      ∃ pre post, mismatchMessage "ws-notifications" .Http = pre ++ "useSocket" ++ post) :=
  ⟨rfl, rfl,
    (transport_guard demoCtrl "ws-notifications:default:message"
      ⟨"ws-notifications", "default", "message"⟩ wsNotifications _ _
      rfl rfl rfl rfl).1 rfl⟩

/-- C5: every successful `useCollection id` replaces the assignment map
wholesale with the map resolved for `id` and sets the selected collection
to `id`, discarding all prior ad-hoc overrides: the outcome is the same
from any two prior states over the same store, and `getActiveRoutes`
afterwards is exactly the manager's `resolveCollection id`. -/
theorem useCollection_replaces_wholesale (c1 c2 : MocksController) (id : String)
    (d1 d2 : MocksController) (hs : c1.store = c2.store)
    (h1 : useCollection c1 id = .ok d1) (h2 : useCollection c2 id = .ok d2) :
    (∃ m, resolve c1.store id = .ok m ∧ d1.effectiveMap = m ∧ d2.effectiveMap = m) ∧
    d1.selectedCollectionId = some id ∧ d2.selectedCollectionId = some id ∧
    getActiveRoutes d1 = resolveCollection ⟨c1.store⟩ id ∧
    getActiveRoutes d1 = getActiveRoutes d2 := by
  simp only [useCollection] at h1 h2
  rw [← hs] at h2
  cases hm : resolve c1.store id with
  | error e => simp [hm] at h1
  | ok m =>
    simp only [hm, Except.ok.injEq] at h1 h2
    subst h1
    subst h2
    refine ⟨⟨m, rfl, rfl, rfl⟩, rfl, rfl, ?_, ?_⟩
    · simp [getActiveRoutes, resolveCollection, hm]
    · simp [getActiveRoutes, hs]

/-- Witness for C5: from a fresh controller and from a controller carrying
a prior override overlay, `useCollection "extended"` reaches the same
state, whose active routes are the resolved `extended` collection. -/
theorem useCollection_replaces_wholesale_witness :
    demoCtrl.store = overriddenCtrl.store ∧
    useCollection demoCtrl "extended" = .ok extendedCtrl ∧
    useCollection overriddenCtrl "extended" = .ok extendedCtrl ∧
    ((∃ m, resolve demoCtrl.store "extended" = .ok m ∧
        extendedCtrl.effectiveMap = m ∧ extendedCtrl.effectiveMap = m) ∧
      extendedCtrl.selectedCollectionId = some "extended" ∧
      extendedCtrl.selectedCollectionId = some "extended" ∧
      getActiveRoutes extendedCtrl = resolveCollection ⟨demoCtrl.store⟩ "extended" ∧
      getActiveRoutes extendedCtrl = getActiveRoutes extendedCtrl) :=
  ⟨rfl, rfl, rfl,
    useCollection_replaces_wholesale demoCtrl overriddenCtrl "extended"
      extendedCtrl extendedCtrl rfl rfl rfl⟩

/-- C6: `currentCollection` changes only through `useCollection`: any
`useRoutes` or `useSocket` call, successful or failed, leaves the selected
collection id exactly as it was. -/
theorem currentCollection_frame (c : MocksController) (refs : List String) :
    currentCollection (runOp c (.opUseRoutes refs)).1 = currentCollection c ∧
    currentCollection (runOp c (.opUseSocket refs)).1 = currentCollection c := by
  constructor
  · cases h : stageRefs c.store .Http refs <;>
      simp [runOp, dispatchOp, useRoutes, h, currentCollection]
  · cases h : stageRefs c.store .WebSocket refs <;>
      simp [runOp, dispatchOp, useSocket, h, currentCollection]

/-- Counterexample for C7 as stated: a reachable controller state on which
`getActiveRoutes` fails. Over a store whose routes source matched zero
files, `useCollection "broken"` succeeds (resolution only parses entries),
so the reachable state carries a reference to a missing route definition
and `getActiveRoutes` fails with the deferred `RouteNotFound` — reads are
not failure-free on every reachable state. -/
theorem reads_never_fail_counterexample :
    Reachable brokenStore brokenController ∧
    getActiveRoutes brokenController = .error (.RouteNotFound "ghost-route") := by
  constructor
  · have h : (runOp ⟨brokenStore, none, []⟩ (.opUseCollection "broken")).1 =
        brokenController := rfl
    exact h ▸ Reachable.step ⟨brokenStore, none, []⟩ (.opUseCollection "broken")
      Reachable.init
  · rfl

/-- C7 (amended): `currentCollection` never fails, and on a freshly
constructed controller with no default collection `getActiveRoutes`
returns the empty sequence; `getActiveRoutes` succeeds on every state
whose `effectiveMap` entries all materialize against the store, and
entries staged by a successful `useRoutes`/`useSocket` always materialize
(invalid refs never enter the map through those calls) — but entries
introduced by `useCollection` may reference definitions a zero-matching
routes glob never provided, deferring a `RouteNotFound` to the read. -/
theorem reads_safe (s : Store) (c : MocksController) :
    getActiveRoutes { store := s, selectedCollectionId := none, effectiveMap := [] } =
      .ok [] ∧
    currentCollection { store := s, selectedCollectionId := none, effectiveMap := [] } =
      none ∧
    ((∀ e ∈ c.effectiveMap, ∃ ar, materializeEntry c.store e = .ok ar) →
      ∃ ars, getActiveRoutes c = .ok ars) ∧
    (∀ refs c2, useRoutes c refs = .ok c2 →
      (∀ e ∈ c.effectiveMap, ∃ ar, materializeEntry c.store e = .ok ar) →
      ∀ e ∈ c2.effectiveMap, ∃ ar, materializeEntry c2.store e = .ok ar) ∧
    (∀ refs c2, useSocket c refs = .ok c2 →
      (∀ e ∈ c.effectiveMap, ∃ ar, materializeEntry c.store e = .ok ar) →
      ∀ e ∈ c2.effectiveMap, ∃ ar, materializeEntry c2.store e = .ok ar) := by
  refine ⟨rfl, rfl, materialize_ok_of_entries c.store c.effectiveMap, ?_, ?_⟩
  · intro refs c2 h2 hall e he
    simp only [useRoutes] at h2
    cases hs2 : stageRefs c.store .Http refs with
    | error err => simp [hs2] at h2
    | ok staged =>
      simp only [hs2, Except.ok.injEq] at h2
      subst h2
      rcases mem_commitStaged staged c.effectiveMap e he with h | h
      · exact hall e h
      · obtain ⟨r, _, hv⟩ := stageRefs_ok_mem c.store .Http refs staged hs2 e h
        exact validateRef_materializes c.store .Http r e hv
  · intro refs c2 h2 hall e he
    simp only [useSocket] at h2
    cases hs2 : stageRefs c.store .WebSocket refs with
    | error err => simp [hs2] at h2
    | ok staged =>
      simp only [hs2, Except.ok.injEq] at h2
      subst h2
      rcases mem_commitStaged staged c.effectiveMap e he with h | h
      · exact hall e h
      · obtain ⟨r, _, hv⟩ := stageRefs_ok_mem c.store .WebSocket refs staged hs2 e h
        exact validateRef_materializes c.store .WebSocket r e hv

/-- Witness for C7 (amended) at a concrete state: every entry of the
`base`-selected controller materializes and its reads succeed. -/
theorem reads_safe_witness :
    (∀ e ∈ demoCtrlBase.effectiveMap,
      ∃ ar, materializeEntry demoCtrlBase.store e = .ok ar) ∧
    (∃ ars, getActiveRoutes demoCtrlBase = .ok ars) ∧
    getActiveRoutes demoCtrl = .ok [] :=
  have hall : ∀ e ∈ demoCtrlBase.effectiveMap,
      ∃ ar, materializeEntry demoCtrlBase.store e = .ok ar := by
    intro e he
    simp only [demoCtrlBase, baseMap, List.mem_cons, List.not_mem_nil, or_false] at he
    rcases he with h | h
    · exact ⟨arUsersBase, by rw [h]; rfl⟩
    · exact ⟨arProductsBase, by rw [h]; rfl⟩
  ⟨hall, (reads_safe demoStore demoCtrlBase).2.2.1 hall,
    (reads_safe demoStore demoCtrlBase).1⟩

/-- C8: resolution is deterministic and controller instances are
independent: managers over the same immutable store resolve every
collection identically, and a mutating operation on one instance of a
world of controllers leaves every other instance untouched. -/
theorem determinism_independence :
    (∀ (m1 m2 : MocksManager) (id : String), m1.store = m2.store →
      resolveCollection m1 id = resolveCollection m2 id) ∧
    (∀ (ws : List MocksController) (i j : Nat) (op : ControllerOp), i ≠ j →
      (stepWorld ws i op).get? j = ws.get? j) := by
  constructor
  · intro m1 m2 id h
    simp [resolveCollection, h]
  · intro ws i j op hij
    unfold stepWorld
    cases h : ws.get? i with
    | none => rfl
    | some c => exact getq_set_ne ws i j _ hij

/-- Witness for C8: two managers over the demo store agree on `base`, and
mutating the second controller of a two-controller world leaves the first
unchanged. -/
theorem determinism_independence_witness :
    (MocksManager.mk demoStore).store = (MocksManager.mk demoStore).store ∧
    resolveCollection ⟨demoStore⟩ "base" = resolveCollection ⟨demoStore⟩ "base" ∧
    (1 : Nat) ≠ 0 ∧
    (stepWorld [demoCtrlBase, extendedCtrl] 1 (.opUseCollection "standalone")).get? 0 =
      [demoCtrlBase, extendedCtrl].get? 0 :=
  ⟨rfl, determinism_independence.1 ⟨demoStore⟩ ⟨demoStore⟩ "base" rfl,
    by decide,
    determinism_independence.2 [demoCtrlBase, extendedCtrl] 1 0
      (.opUseCollection "standalone") (by decide)⟩

/-- C9: a routes source matching zero files is not a load error —
construction succeeds and yields a store with no route definitions — and
the failure is deferred: the first resolution that needs a route
definition fails with a not-found error. -/
theorem empty_routes_deferred :
    (∀ (cols : List CollectionDefinition), cols ≠ [] →
      ∃ s, loadStore cols [] = .ok s ∧ s.routes = []) ∧
    (∀ (s : Store) (id : String) (m : AssignmentMap), s.routes = [] →
      resolve s id = .ok m → m ≠ [] →
      ∃ rid, resolveCollection ⟨s⟩ id = .error (.RouteNotFound rid)) := by
  constructor
  · intro cols hne
    refine ⟨⟨cols, []⟩, ?_, rfl⟩
    cases cols with
    | nil => exact absurd rfl hne
    | cons a t => simp [loadStore]
  · intro s id m hrts hres hne
    cases m with
    | nil => exact absurd rfl hne
    | cons e rest =>
      refine ⟨e.1, ?_⟩
      have hfr : findRoute s e.1 = none := by simp [findRoute, hrts]
      simp [resolveCollection, hres, materialize, materializeEntry, hfr]

/-- Witness for C9: the demo collections load over an empty routes source,
and resolving `base` there fails with `RouteNotFound`. -/
theorem empty_routes_deferred_witness :
    demoCollections ≠ [] ∧
    (∃ s, loadStore demoCollections [] = .ok s ∧ s.routes = []) ∧
    resolve emptyRoutesStore "base" = .ok baseMap ∧
    baseMap ≠ [] ∧
    (∃ rid, resolveCollection ⟨emptyRoutesStore⟩ "base" =
      .error (.RouteNotFound rid)) :=
  have h1 : demoCollections ≠ [] := by simp [demoCollections]
  have h2 : baseMap ≠ [] := by simp [baseMap]
  ⟨h1, empty_routes_deferred.1 demoCollections h1, rfl, h2,
    empty_routes_deferred.2 emptyRoutesStore "base" baseMap rfl rfl h2⟩

/-- C10: every ActiveRoute produced by `resolveCollection` or
`getActiveRoutes` carries the full definitions beyond the listed summary
fields: its route is a route definition of the store (with its complete
presets list), its preset is one of that route's presets carrying the
complete variants list, the chosen variant is a member of that list, and
the variants list is non-empty. -/
theorem activeRoute_full_structure :
    (∀ (m : MocksManager) (id : String) (ars : List ActiveRoute) (ar : ActiveRoute),
      resolveCollection m id = .ok ars → ar ∈ ars →
      ar.route ∈ m.store.routes ∧ ar.preset ∈ ar.route.presets ∧
        ar.variant ∈ ar.preset.variants ∧ ar.preset.variants ≠ []) ∧
    (∀ (c : MocksController) (ars : List ActiveRoute) (ar : ActiveRoute),
      getActiveRoutes c = .ok ars → ar ∈ ars →
      ar.route ∈ c.store.routes ∧ ar.preset ∈ ar.route.presets ∧
        ar.variant ∈ ar.preset.variants ∧ ar.preset.variants ≠ []) := by
  have key : ∀ (s : Store) (am : AssignmentMap) (ars : List ActiveRoute)
      (ar : ActiveRoute), materialize am s = .ok ars → ar ∈ ars →
      ar.route ∈ s.routes ∧ ar.preset ∈ ar.route.presets ∧
        ar.variant ∈ ar.preset.variants ∧ ar.preset.variants ≠ [] := by
    intro s am ars ar h har
    obtain ⟨e, _, hme⟩ := mem_materialize s am ars h ar har
    obtain ⟨h1, h2, h3⟩ := materializeEntry_mem s e ar hme
    exact ⟨h1, h2, h3, List.ne_nil_of_mem h3⟩
  constructor
  · intro m id ars ar h har
    simp only [resolveCollection] at h
    cases hres : resolve m.store id with
    | error e => simp [hres] at h
    | ok am =>
      simp only [hres] at h
      exact key m.store am ars ar h har
  · intro c ars ar h har
    exact key c.store c.effectiveMap ars ar h har

/-- Witness for C10: the resolved `base` collection of the demo store, at
its first active route. -/
theorem activeRoute_full_structure_witness :
    resolveCollection ⟨demoStore⟩ "base" = .ok [arUsersBase, arProductsBase] ∧
    arUsersBase ∈ [arUsersBase, arProductsBase] ∧
    (arUsersBase.route ∈ (MocksManager.mk demoStore).store.routes ∧
      arUsersBase.preset ∈ arUsersBase.route.presets ∧
      arUsersBase.variant ∈ arUsersBase.preset.variants ∧
      arUsersBase.preset.variants ≠ []) :=
  ⟨rfl, List.mem_cons_self _ _,
    activeRoute_full_structure.1 ⟨demoStore⟩ "base" [arUsersBase, arProductsBase]
      arUsersBase rfl (List.mem_cons_self _ _)⟩

end Mockito
